import Mathlib

/-!
# A verified model of the coordinate-transform pipeline abstraction

The repository is a notebook exercising a frame-aware coordinate-transform
pipeline (chained/joined/remapped transforms between named frames, with
partial evaluation between frames, in-place stage replacement, and
serialization round-trips).  The pipeline engine itself is supplied by an
external library, so the definitions below model the abstraction from the
specification: composition algebra (`chain`, `join`, `remap`), pipelines of
(frame, transform) steps, partial evaluation, stage mutation, and a
serializer/deserializer over a flat token stream.
-/

namespace WcsPipeline

/-- Modelled from the spec: the error kinds of §7 (the pipeline engine is
external to the repository).  DimensionMismatch for arity inconsistency at
composition or mutation time, ArityMismatch at evaluation time, UnknownFrame
for a name lookup miss, InvalidRange for a reversed between-frame query,
IndexOutOfRange for a bad remap index, ParseError for a malformed serialized
pipeline. -/
inductive PipeError where
  | DimensionMismatch
  | ArityMismatch
  | UnknownFrame
  | InvalidRange
  | IndexOutOfRange
  | ParseError
  deriving DecidableEq, Repr

/-- Modelled from the spec: a transform expression (the external library's
compound-model trees).  `shift`/`scale` are the 1→1 primitive models used by
the notebook; `chain` is sequential composition (the | operator), `join` is
parallel composition (the & operator), and `remap sp n` is the
switchboard/Mapping model taking `n` inputs to `sp.length` outputs.
Coordinates are modelled as rationals. -/
inductive TExpr where
  | shift (offset : ℚ)
  | scale (factor : ℚ)
  | chain (a b : TExpr)
  | join (a b : TExpr)
  | remap (sp : List ℕ) (n : ℕ)
  deriving DecidableEq, Repr

namespace TExpr

/-- Modelled from the spec: the declared input arity N of a transform. -/
def nIn : TExpr → ℕ
  | .shift _ => 1
  | .scale _ => 1
  | .chain a _ => nIn a
  | .join a b => nIn a + nIn b
  | .remap _ n => n

/-- Modelled from the spec: the produced output arity M of a transform. -/
def nOut : TExpr → ℕ
  | .shift _ => 1
  | .scale _ => 1
  | .chain _ b => nOut b
  | .join a b => nOut a + nOut b
  | .remap sp _ => sp.length

/-- Modelled from the spec: evaluation of a transform expression on a tuple
of coordinates.  Chain feeds A's output into B; join applies A to the first
`nIn a` inputs and B to the rest, concatenating the outputs; remap's k-th
output is the input at index `sp[k]`. -/
def eval : TExpr → List ℚ → List ℚ
  | .shift o, xs => [xs.headD 0 + o]
  | .scale k, xs => [xs.headD 0 * k]
  | .chain a b, xs => eval b (eval a xs)
  | .join a b, xs => eval a (xs.take a.nIn) ++ eval b (xs.drop a.nIn)
  | .remap sp _, xs => sp.map (fun i => xs.getD i 0)

/-- Modelled from the spec: internal well-formedness of a transform tree —
every chain node has matching inner arities and every remap index is below
the declared input arity. -/
def validT : TExpr → Bool
  | .shift _ => true
  | .scale _ => true
  | .chain a b => validT a && validT b && (nOut a == nIn b)
  | .join a b => validT a && validT b
  | .remap sp n => sp.all (· < n)

end TExpr

/-- Modelled from the spec: `chain(A, B)` — sequential composition, checked
at composition time: fails with DimensionMismatch when `M_a ≠ N_b`, so no
composite is constructed. -/
def chainT (a b : TExpr) : Except PipeError TExpr :=
  if a.nOut = b.nIn then .ok (.chain a b) else .error .DimensionMismatch

/-- Modelled from the spec: `join(A, B)` — parallel composition; no error
condition beyond malformed inputs, a pure construction. -/
def joinT (a b : TExpr) : TExpr := .join a b

/-- Modelled from the spec: `remap(spec)` over `n` available inputs; fails
with IndexOutOfRange when some index in `spec` is not below `n`. -/
def remapT (sp : List ℕ) (n : ℕ) : Except PipeError TExpr :=
  if sp.all (· < n) then .ok (.remap sp n) else .error .IndexOutOfRange

/-- Modelled from the spec: `evaluate(transform, inputs)` — checks
`length(inputs) = transform.N` and fails with ArityMismatch otherwise. -/
def evaluateT (t : TExpr) (xs : List ℚ) : Except PipeError (List ℚ) :=
  if xs.length = t.nIn then .ok (t.eval xs) else .error .ArityMismatch

/-- On a well-formed transform fed the declared number of inputs, evaluation
produces exactly `nOut` outputs. -/
theorem eval_length (t : TExpr) (xs : List ℚ) (hv : t.validT = true)
    (hx : xs.length = t.nIn) : (t.eval xs).length = t.nOut := by
  induction t generalizing xs with
  | shift o => simp [TExpr.eval, TExpr.nOut]
  | scale k => simp [TExpr.eval, TExpr.nOut]
  | chain a b iha ihb =>
    simp only [TExpr.validT, Bool.and_eq_true, beq_iff_eq] at hv
    obtain ⟨⟨hva, hvb⟩, hab⟩ := hv
    simp only [TExpr.eval, TExpr.nOut]
    exact ihb _ hvb (by rw [iha _ hva hx, hab])
  | join a b iha ihb =>
    simp only [TExpr.validT, Bool.and_eq_true] at hv
    simp only [TExpr.eval, TExpr.nOut, TExpr.nIn] at *
    rw [List.length_append,
      iha _ hv.1 (by rw [List.length_take]; omega),
      ihb _ hv.2 (by rw [List.length_drop, hx]; omega)]
  | remap sp n =>
    simp [TExpr.eval, TExpr.nOut]

/-- Modelled from the spec: a Frame — a named coordinate space with a
declared dimensionality and one unit per axis. -/
structure Frame where
  name : String
  dim : ℕ
  units : List String
  deriving DecidableEq, Repr

/-- Modelled from the spec: a Pipeline Step pairs a Frame with the transform
mapping from that frame to the next step's frame; the final step carries the
sentinel `none` (no outgoing transform). -/
structure Step where
  frame : Frame
  transform : Option TExpr
  deriving DecidableEq, Repr

/-- Modelled from the spec: a Pipeline — an ordered sequence of steps from
the input frame to the output frame. -/
structure Pipeline where
  steps : List Step
  deriving DecidableEq, Repr

/-- Run a list of transforms in order over a coordinate tuple. -/
def runList (ts : List TExpr) (xs : List ℚ) : List ℚ :=
  ts.foldl (fun v t => t.eval v) xs

/-- Modelled from the spec: the name of the pipeline's input frame
(step 0's frame). -/
def inputFrameName (p : Pipeline) : String :=
  match p.steps with
  | [] => ""
  | s :: _ => s.frame.name

/-- Modelled from the spec: the name of the pipeline's output frame
(the last step's frame). -/
def outputFrameName (p : Pipeline) : String :=
  match p.steps.getLast? with
  | some s => s.frame.name
  | none => ""

/-- Modelled from the spec: `evaluate(pipeline, coords)` runs the input
coordinates through every step's outgoing transform in order (the final
step's sentinel contributes nothing). -/
def evaluateP (p : Pipeline) (xs : List ℚ) : List ℚ :=
  runList (p.steps.filterMap Step.transform) xs

/-- Index of the step whose frame carries the given name. -/
def findFrameIdx (p : Pipeline) (f : String) : Option ℕ :=
  p.steps.findIdx? (fun s => s.frame.name == f)

/-- The outgoing transforms of the steps from index `i` (inclusive) up to
index `j` (exclusive). -/
def transformsBetween (p : Pipeline) (i j : ℕ) : List TExpr :=
  ((p.steps.take j).drop i).filterMap Step.transform

/-- Modelled from the spec: `evaluate_between(pipeline, from, to, coords)` —
UnknownFrame when either name is absent, InvalidRange when `from` occurs
after `to`; otherwise composes the transforms from the `from` step's
outgoing transform (inclusive) up to the `to` step's outgoing transform
(exclusive). -/
def evaluate_between (p : Pipeline) (f1 f2 : String) (xs : List ℚ) :
    Except PipeError (List ℚ) :=
  match findFrameIdx p f1, findFrameIdx p f2 with
  | some i, some j =>
      if j < i then .error .InvalidRange
      else .ok (runList (transformsBetween p i j) xs)
  | _, _ => .error .UnknownFrame

/-- Modelled from the spec: `get_transform(pipeline, frame_name)` returns
the outgoing transform of the named step; UnknownFrame when the name is
absent (or names the sentinel-bearing final step). -/
def get_transform (p : Pipeline) (f : String) : Except PipeError TExpr :=
  match p.steps.find? (fun s => s.frame.name == f) with
  | some s =>
      match s.transform with
      | some t => .ok t
      | none => .error .UnknownFrame
  | none => .error .UnknownFrame

/-- Modelled from the spec: `set_transform(pipeline, frame_name, t)` —
atomic replace-or-reject.  The new transform's input arity must equal the
named frame's dimensionality and its output arity the next frame's
dimensionality; otherwise DimensionMismatch and the pipeline is unchanged.
Mutation is modelled by explicit state passing: the returned pipeline is the
updated shared state. -/
def set_transform (p : Pipeline) (f : String) (t : TExpr) :
    Except PipeError Pipeline :=
  match findFrameIdx p f with
  | none => .error .UnknownFrame
  | some i =>
      match p.steps[i]?, p.steps[i + 1]? with
      | some st, some st2 =>
          if t.nIn = st.frame.dim ∧ t.nOut = st2.frame.dim then
            .ok ⟨p.steps.set i ⟨st.frame, some t⟩⟩
          else .error .DimensionMismatch
      | _, _ => .error .DimensionMismatch

/-- Modelled from the spec: `list_frames(pipeline)` — read-only
introspection of the frame sequence in pipeline order. -/
def list_frames (p : Pipeline) : List Frame :=
  p.steps.map Step.frame

/-- Modelled from the spec: the Pipeline invariants — a nonempty step list,
each frame's unit list matching its dimensionality, unique frame names,
every non-final step carrying a well-formed transform whose arities match
the adjacent frames' dimensionalities, and the final step carrying the
sentinel. -/
def stepsValid : List Step → Bool
  | [] => false
  | [s] => (s.frame.units.length == s.frame.dim) && s.transform.isNone
  | s :: s2 :: rest =>
      match s.transform with
      | none => false
      | some t =>
          (s.frame.units.length == s.frame.dim) && t.validT &&
            (t.nIn == s.frame.dim) && (t.nOut == s2.frame.dim) &&
            stepsValid (s2 :: rest)

/-- Modelled from the spec: full pipeline validity — step chain invariants
plus uniqueness of frame names. -/
def pipelineValid (p : Pipeline) : Bool :=
  stepsValid p.steps && decide ((p.steps.map (fun s => s.frame.name)).Nodup)

/-! ## Serialization

Modelled from the spec: the persistence layer flattens a pipeline to a
stream of primitive tokens and reconstructs it, rejecting malformed streams
with ParseError. -/

/-- Modelled from the spec: the primitive tokens of the serialized form. -/
inductive Tok where
  | nat (n : ℕ)
  | rat (q : ℚ)
  | str (s : String)
  | tShift
  | tScale
  | tChain
  | tJoin
  | tRemap
  | tSome
  | tNone
  deriving DecidableEq, Repr

/-- Serialize a transform expression in prefix order. -/
def serT : TExpr → List Tok
  | .shift o => [.tShift, .rat o]
  | .scale k => [.tScale, .rat k]
  | .chain a b => .tChain :: (serT a ++ serT b)
  | .join a b => .tJoin :: (serT a ++ serT b)
  | .remap sp n => .tRemap :: .nat n :: .nat sp.length :: sp.map Tok.nat

/-- Serialize a frame: name, dimensionality, and the per-axis units. -/
def serFrame (f : Frame) : List Tok :=
  .str f.name :: .nat f.dim :: .nat f.units.length :: f.units.map Tok.str

/-- Serialize a step: its frame followed by its optional transform. -/
def serStep (s : Step) : List Tok :=
  serFrame s.frame ++
    (match s.transform with
     | none => [Tok.tNone]
     | some t => Tok.tSome :: serT t)

/-- Serialize a list of steps back to back. -/
def serSteps : List Step → List Tok
  | [] => []
  | s :: rest => serStep s ++ serSteps rest

/-- Modelled from the spec: `Serialize(Pipeline)` — the step count followed
by each step's tokens. -/
def serialize (p : Pipeline) : List Tok :=
  .nat p.steps.length :: serSteps p.steps

/-- Parse `k` consecutive nat tokens. -/
def parseNats : ℕ → List Tok → Option (List ℕ × List Tok)
  | 0, ts => some ([], ts)
  | k + 1, .nat n :: ts =>
      (parseNats k ts).map (fun r => (n :: r.1, r.2))
  | _ + 1, _ => none

/-- Parse `k` consecutive string tokens. -/
def parseStrs : ℕ → List Tok → Option (List String × List Tok)
  | 0, ts => some ([], ts)
  | k + 1, .str s :: ts =>
      (parseStrs k ts).map (fun r => (s :: r.1, r.2))
  | _ + 1, _ => none

/-- Fuelled parser for transform expressions (prefix order). -/
def parseT : ℕ → List Tok → Option (TExpr × List Tok)
  | 0, _ => none
  | _ + 1, .tShift :: .rat o :: ts => some (.shift o, ts)
  | _ + 1, .tScale :: .rat k :: ts => some (.scale k, ts)
  | fuel + 1, .tChain :: ts => do
      let r1 ← parseT fuel ts
      let r2 ← parseT fuel r1.2
      pure (.chain r1.1 r2.1, r2.2)
  | fuel + 1, .tJoin :: ts => do
      let r1 ← parseT fuel ts
      let r2 ← parseT fuel r1.2
      pure (.join r1.1 r2.1, r2.2)
  | _ + 1, .tRemap :: .nat n :: .nat k :: ts =>
      (parseNats k ts).map (fun r => (.remap r.1 n, r.2))
  | _ + 1, _ => none

/-- Parse a frame. -/
def parseFrame : List Tok → Option (Frame × List Tok)
  | .str name :: .nat dim :: .nat k :: ts =>
      (parseStrs k ts).map (fun r => (⟨name, dim, r.1⟩, r.2))
  | _ => none

/-- Parse a step at the given transform-parser fuel. -/
def parseStep (fuel : ℕ) (ts : List Tok) : Option (Step × List Tok) := do
  let rf ← parseFrame ts
  match rf.2 with
  | Tok.tNone :: ts2 => pure (⟨rf.1, none⟩, ts2)
  | Tok.tSome :: ts2 => do
      let rt ← parseT fuel ts2
      pure (⟨rf.1, some rt.1⟩, rt.2)
  | _ => none

/-- Parse `k` consecutive steps. -/
def parseSteps : ℕ → ℕ → List Tok → Option (List Step × List Tok)
  | 0, _, ts => some ([], ts)
  | k + 1, fuel, ts =>
      (parseStep fuel ts).bind fun r =>
        (parseSteps k fuel r.2).map (fun r2 => (r.1 :: r2.1, r2.2))

/-- Modelled from the spec: `Deserialize(byte stream)` — reconstructs the
pipeline and rejects malformed structures (unparseable streams, trailing
data, or broken pipeline invariants) with ParseError. -/
def deserialize (ts : List Tok) : Except PipeError Pipeline :=
  match ts with
  | .nat k :: rest =>
      match parseSteps k (rest.length + 1) rest with
      | some (steps, []) =>
          if pipelineValid ⟨steps⟩ then .ok ⟨steps⟩ else .error .ParseError
      | _ => .error .ParseError
  | _ => .error .ParseError

/-- Constructor count of a transform tree, a lower bound for parser fuel. -/
def sizeT : TExpr → ℕ
  | .shift _ => 1
  | .scale _ => 1
  | .chain a b => sizeT a + sizeT b + 1
  | .join a b => sizeT a + sizeT b + 1
  | .remap _ _ => 1

theorem parseNats_ser (l : List ℕ) (rest : List Tok) :
    parseNats l.length (l.map Tok.nat ++ rest) = some (l, rest) := by
  induction l with
  | nil => rfl
  | cons n ns ih => simp [parseNats, ih]

theorem parseStrs_ser (l : List String) (rest : List Tok) :
    parseStrs l.length (l.map Tok.str ++ rest) = some (l, rest) := by
  induction l with
  | nil => rfl
  | cons s ss ih => simp [parseStrs, ih]

theorem sizeT_le_serT_length (t : TExpr) : sizeT t ≤ (serT t).length := by
  induction t with
  | shift o => simp [sizeT, serT]
  | scale k => simp [sizeT, serT]
  | chain a b iha ihb => simp [sizeT, serT]; omega
  | join a b iha ihb => simp [sizeT, serT]; omega
  | remap sp n => simp [sizeT, serT]

theorem parseT_ser (t : TExpr) :
    ∀ fuel rest, sizeT t ≤ fuel →
      parseT fuel (serT t ++ rest) = some (t, rest) := by
  induction t with
  | shift o =>
    intro fuel rest h
    match fuel with
    | f + 1 => rfl
  | scale k =>
    intro fuel rest h
    match fuel with
    | f + 1 => rfl
  | chain a b iha ihb =>
    intro fuel rest h
    match fuel with
    | f + 1 =>
      have ha : sizeT a ≤ f := by simp [sizeT] at h; omega
      have hb : sizeT b ≤ f := by simp [sizeT] at h; omega
      have hre : serT (TExpr.chain a b) ++ rest =
          Tok.tChain :: (serT a ++ (serT b ++ rest)) := by
        simp [serT]
      rw [hre]
      simp [parseT, iha f (serT b ++ rest) ha, ihb f rest hb]
  | join a b iha ihb =>
    intro fuel rest h
    match fuel with
    | f + 1 =>
      have ha : sizeT a ≤ f := by simp [sizeT] at h; omega
      have hb : sizeT b ≤ f := by simp [sizeT] at h; omega
      have hre : serT (TExpr.join a b) ++ rest =
          Tok.tJoin :: (serT a ++ (serT b ++ rest)) := by
        simp [serT]
      rw [hre]
      simp [parseT, iha f (serT b ++ rest) ha, ihb f rest hb]
  | remap sp n =>
    intro fuel rest h
    match fuel with
    | f + 1 =>
      simp [serT, parseT, parseNats_ser]

theorem parseFrame_ser (f : Frame) (rest : List Tok) :
    parseFrame (serFrame f ++ rest) = some (f, rest) := by
  simp [serFrame, parseFrame, parseStrs_ser]

theorem parseStep_ser (s : Step) (fuel : ℕ) (rest : List Tok)
    (h : ∀ t, s.transform = some t → sizeT t ≤ fuel) :
    parseStep fuel (serStep s ++ rest) = some (s, rest) := by
  match s with
  | ⟨fr, none⟩ =>
    simp [serStep, parseStep, List.append_assoc, parseFrame_ser]
  | ⟨fr, some t⟩ =>
    have ht : sizeT t ≤ fuel := h t rfl
    simp [serStep, parseStep, List.append_assoc, parseFrame_ser,
      parseT_ser t fuel rest ht]

theorem parseSteps_ser (steps : List Step) (fuel : ℕ) (rest : List Tok)
    (h : ∀ s ∈ steps, ∀ t, s.transform = some t → sizeT t ≤ fuel) :
    parseSteps steps.length fuel (serSteps steps ++ rest) =
      some (steps, rest) := by
  induction steps with
  | nil => rfl
  | cons s ss ih =>
    simp only [List.length_cons, serSteps, List.append_assoc, parseSteps,
      parseStep_ser s fuel _ (h s (List.mem_cons_self s ss)),
      Option.some_bind,
      ih (fun u hu => h u (List.mem_cons_of_mem s hu))]
    rfl

theorem serStep_length_le (s : Step) (steps : List Step) (hs : s ∈ steps) :
    (serStep s).length ≤ (serSteps steps).length := by
  induction steps with
  | nil => cases hs
  | cons a rest ih =>
    rcases List.mem_cons.mp hs with h | h
    · subst h; simp [serSteps]
    · have := ih h
      simp only [serSteps, List.length_append]
      omega

theorem serT_length_le_serStep (s : Step) (t : TExpr)
    (ht : s.transform = some t) : (serT t).length ≤ (serStep s).length := by
  match s with
  | ⟨fr, o⟩ =>
    simp only [Step.transform] at ht
    subst ht
    simp [serStep]
    omega

/-- Serialization round-trips exactly on every valid pipeline. -/
theorem deserialize_serialize (p : Pipeline) (hp : pipelineValid p = true) :
    deserialize (serialize p) = .ok p := by
  have hfuel : ∀ s ∈ p.steps, ∀ t, s.transform = some t →
      sizeT t ≤ (serSteps p.steps).length + 1 := by
    intro s hs t ht
    have h1 := sizeT_le_serT_length t
    have h2 := serT_length_le_serStep s t ht
    have h3 := serStep_length_le s p.steps hs
    omega
  have hparse := parseSteps_ser p.steps ((serSteps p.steps).length + 1) [] hfuel
  simp only [List.append_nil] at hparse
  simp [deserialize, serialize, hparse, hp]

/-! ## Structural helper lemmas -/

theorem findIdx?_append_cons {α : Type} (q : α → Bool) (pre : List α) (a : α)
    (rest : List α) (h : ∀ u ∈ pre, q u = false) (ha : q a = true) :
    (pre ++ a :: rest).findIdx? q = some pre.length := by
  induction pre with
  | nil => simp [List.findIdx?_cons, ha]
  | cons x xs ih =>
    have hx : q x = false := h x (by simp)
    simp [List.findIdx?_cons, hx,
      ih (fun u hu => h u (List.mem_cons_of_mem x hu))]

theorem find?_append_cons {α : Type} (q : α → Bool) (pre : List α) (a : α)
    (rest : List α) (h : ∀ u ∈ pre, q u = false) (ha : q a = true) :
    (pre ++ a :: rest).find? q = some a := by
  induction pre with
  | nil => simp [List.find?_cons, ha]
  | cons x xs ih =>
    have hx : q x = false := h x (by simp)
    simp [List.find?_cons, hx,
      ih (fun u hu => h u (List.mem_cons_of_mem x hu))]

theorem set_append_length {α : Type} (pre : List α) (a v : α)
    (rest : List α) :
    (pre ++ a :: rest).set pre.length v = pre ++ v :: rest := by
  induction pre with
  | nil => rfl
  | cons x xs ih => simp [List.set, ih]

theorem getElem?_append_length {α : Type} (pre : List α) (a : α)
    (rest : List α) : (pre ++ a :: rest)[pre.length]? = some a := by
  rw [List.getElem?_append]
  simp

theorem getElem?_append_length_succ {α : Type} (pre : List α) (a b : α)
    (rest : List α) :
    (pre ++ a :: b :: rest)[pre.length + 1]? = some b := by
  rw [List.getElem?_append]
  simp

theorem getElem?_append_cons_ne {α : Type} (pre : List α) (a b : α)
    (rest : List α) (j : ℕ) (hj : j ≠ pre.length) :
    (pre ++ a :: rest)[j]? = (pre ++ b :: rest)[j]? := by
  rcases Nat.lt_or_ge j pre.length with h | h
  · rw [List.getElem?_append, List.getElem?_append]
    simp [h]
  · have h' : pre.length < j := Nat.lt_of_le_of_ne h (Ne.symm hj)
    obtain ⟨k, rfl⟩ : ∃ k, j = pre.length + (k + 1) := ⟨j - pre.length - 1, by omega⟩
    rw [List.getElem?_append, List.getElem?_append]
    simp [Nat.not_lt.mpr (Nat.le_add_right _ _)]

/-! ## Segment lemmas for partial evaluation -/

theorem runList_append (A B : List TExpr) (xs : List ℚ) :
    runList (A ++ B) xs = runList B (runList A xs) :=
  List.foldl_append _ _ A B

theorem runList_cons (t : TExpr) (B : List TExpr) (xs : List ℚ) :
    runList (t :: B) xs = runList B (t.eval xs) := rfl

theorem transformsBetween_split (p : Pipeline) (i j : ℕ) (hij : i ≤ j) :
    transformsBetween p 0 i ++ transformsBetween p i j =
      transformsBetween p 0 j := by
  unfold transformsBetween
  rw [List.drop_zero, List.drop_zero, ← List.filterMap_append]
  congr 1
  conv_rhs => rw [← List.take_append_drop i (List.take j p.steps)]
  rw [List.take_take, Nat.min_eq_left hij]

theorem evaluate_between_ok (p : Pipeline) (f1 f2 : String) (i j : ℕ)
    (h1 : findFrameIdx p f1 = some i) (h2 : findFrameIdx p f2 = some j)
    (hij : i ≤ j) (xs : List ℚ) :
    evaluate_between p f1 f2 xs =
      .ok (runList (transformsBetween p i j) xs) := by
  simp [evaluate_between, h1, h2, Nat.not_lt.mpr hij]

theorem findFrameIdx_input (p : Pipeline) (s : Step) (rest : List Step)
    (hp : p.steps = s :: rest) :
    findFrameIdx p (inputFrameName p) = some 0 := by
  simp [findFrameIdx, inputFrameName, hp, List.findIdx?_cons]

/-! ## Mutation helper lemmas -/

theorem namePred_false (pre : List Step) (fr : Frame)
    (hpre : ∀ u ∈ pre, u.frame.name ≠ fr.name) :
    ∀ u ∈ pre, (fun s => s.frame.name == fr.name) u = false := by
  intro u hu
  simp only [beq_eq_false_iff_ne, ne_eq]
  exact hpre u hu

theorem findFrameIdx_at (pre post : List Step) (fr : Frame)
    (o : Option TExpr) (hpre : ∀ u ∈ pre, u.frame.name ≠ fr.name) :
    findFrameIdx ⟨pre ++ ⟨fr, o⟩ :: post⟩ fr.name = some pre.length :=
  findIdx?_append_cons _ pre _ post (namePred_false pre fr hpre) (by simp)

theorem get_transform_ok (pre post : List Step) (fr : Frame) (t : TExpr)
    (hpre : ∀ u ∈ pre, u.frame.name ≠ fr.name) :
    get_transform ⟨pre ++ ⟨fr, some t⟩ :: post⟩ fr.name = .ok t := by
  unfold get_transform
  rw [find?_append_cons _ pre _ post (namePred_false pre fr hpre) (by simp)]

theorem set_transform_ok (pre post : List Step) (fr fr2 : Frame)
    (old tr2 : Option TExpr) (t : TExpr)
    (hpre : ∀ u ∈ pre, u.frame.name ≠ fr.name)
    (h1 : t.nIn = fr.dim) (h2 : t.nOut = fr2.dim) :
    set_transform ⟨pre ++ ⟨fr, old⟩ :: ⟨fr2, tr2⟩ :: post⟩ fr.name t =
      .ok ⟨pre ++ ⟨fr, some t⟩ :: ⟨fr2, tr2⟩ :: post⟩ := by
  unfold set_transform
  rw [findFrameIdx_at pre (⟨fr2, tr2⟩ :: post) fr old hpre]
  have hget1 :
      (pre ++ ⟨fr, old⟩ :: ⟨fr2, tr2⟩ :: post : List Step)[pre.length]? =
        some ⟨fr, old⟩ := getElem?_append_length pre _ _
  have hget2 :
      (pre ++ ⟨fr, old⟩ :: ⟨fr2, tr2⟩ :: post : List Step)[pre.length + 1]? =
        some ⟨fr2, tr2⟩ := getElem?_append_length_succ pre _ _ _
  simp only [hget1, hget2]
  rw [if_pos ⟨h1, h2⟩, set_append_length]

theorem set_transform_mismatch (pre post : List Step) (fr fr2 : Frame)
    (old tr2 : Option TExpr) (t : TExpr)
    (hpre : ∀ u ∈ pre, u.frame.name ≠ fr.name)
    (hmis : ¬(t.nIn = fr.dim ∧ t.nOut = fr2.dim)) :
    set_transform ⟨pre ++ ⟨fr, old⟩ :: ⟨fr2, tr2⟩ :: post⟩ fr.name t =
      .error .DimensionMismatch := by
  unfold set_transform
  rw [findFrameIdx_at pre (⟨fr2, tr2⟩ :: post) fr old hpre]
  have hget1 :
      (pre ++ ⟨fr, old⟩ :: ⟨fr2, tr2⟩ :: post : List Step)[pre.length]? =
        some ⟨fr, old⟩ := getElem?_append_length pre _ _
  have hget2 :
      (pre ++ ⟨fr, old⟩ :: ⟨fr2, tr2⟩ :: post : List Step)[pre.length + 1]? =
        some ⟨fr2, tr2⟩ := getElem?_append_length_succ pre _ _ _
  simp only [hget1, hget2]
  rw [if_neg hmis]

/-! ## The notebook's concrete three-frame pipeline -/

/-- A three-frame pipeline in the notebook's shape: detector → v2v3 →
world, with a shift-by-(1,2) transform chained into a scale-by-(2,2)
transform. -/
def examplePipeline : Pipeline :=
  ⟨[⟨⟨"detector", 2, ["pixel", "pixel"]⟩,
      some (.join (.shift 1) (.shift 2))⟩,
    ⟨⟨"v2v3", 2, ["arcsec", "arcsec"]⟩,
      some (.join (.scale 2) (.scale 2))⟩,
    ⟨⟨"world", 2, ["deg", "deg"]⟩, none⟩]⟩

theorem examplePipeline_valid : pipelineValid examplePipeline = true := by
  decide

theorem examplePipeline_eval :
    evaluateP examplePipeline [10, 20] = [22, 44] := by
  norm_num [evaluateP, examplePipeline, runList, List.filterMap,
    List.foldl, TExpr.eval, TExpr.nIn]

/-! ## Claim theorems -/

/-- C2: Sequential composition is function composition — for transforms A
(N_a→M_a) and B (M_a→M_c), chain(A, B) succeeds, takes N_a inputs and
produces M_c outputs, and applied to any input x of length N_a it equals
B(A(x)). -/
theorem chain_is_composition (A B : TExpr) (h : A.nOut = B.nIn) :
    ∃ c, chainT A B = .ok c ∧ c.nIn = A.nIn ∧ c.nOut = B.nOut ∧
      ∀ x : List ℚ, x.length = A.nIn →
        evaluateT c x = .ok (B.eval (A.eval x)) := by
  refine ⟨.chain A B, ?_, rfl, rfl, ?_⟩
  · simp [chainT, h]
  · intro x hx
    simp [evaluateT, TExpr.nIn, hx, TExpr.eval]

/-- Witness for C2 at A = shift 1, B = scale 2. -/
theorem chain_is_composition_witness :
    (TExpr.shift 1).nOut = (TExpr.scale 2).nIn ∧
      ∃ c, chainT (.shift 1) (.scale 2) = .ok c ∧
        c.nIn = (TExpr.shift 1).nIn ∧ c.nOut = (TExpr.scale 2).nOut ∧
        ∀ x : List ℚ, x.length = (TExpr.shift 1).nIn →
          evaluateT c x = .ok ((TExpr.scale 2).eval ((TExpr.shift 1).eval x)) :=
  ⟨rfl, chain_is_composition (.shift 1) (.scale 2) rfl⟩

/-- C3: Parallel composition splits and concatenates — for valid transforms
A (N_a→M_a) and B (N_b→M_b), join(A, B) accepts exactly N_a+N_b inputs,
produces M_a+M_b outputs, and on an input split as (x, y) its output is the
concatenation of A(x) and B(y). -/
theorem join_splits_concatenates (A B : TExpr)
    (hA : A.validT = true) (hB : B.validT = true)
    (x y : List ℚ) (hx : x.length = A.nIn) (hy : y.length = B.nIn) :
    (joinT A B).nIn = A.nIn + B.nIn ∧
    (joinT A B).nOut = A.nOut + B.nOut ∧
    evaluateT (joinT A B) (x ++ y) = .ok (A.eval x ++ B.eval y) ∧
    ((joinT A B).eval (x ++ y)).length = A.nOut + B.nOut ∧
    (∀ z : List ℚ, z.length ≠ A.nIn + B.nIn →
      evaluateT (joinT A B) z = .error .ArityMismatch) := by
  have htake : (x ++ y).take A.nIn = x := by
    rw [← hx]; exact List.take_left x y
  have hdrop : (x ++ y).drop A.nIn = y := by
    rw [← hx]; exact List.drop_left x y
  have heval : (TExpr.join A B).eval (x ++ y) = A.eval x ++ B.eval y := by
    simp [TExpr.eval, htake, hdrop]
  refine ⟨rfl, rfl, ?_, ?_, ?_⟩
  · simp [evaluateT, joinT, TExpr.nIn, List.length_append, hx, hy, heval]
  · rw [joinT, heval, List.length_append, eval_length A x hA hx,
      eval_length B y hB hy]
  · intro z hz
    simp [evaluateT, joinT, TExpr.nIn, hz]

/-- Witness for C3 at A = shift 1, B = scale 2, x = [5], y = [7]. -/
theorem join_splits_concatenates_witness :
    (TExpr.shift 1).validT = true ∧ (TExpr.scale 2).validT = true ∧
      ([(5 : ℚ)].length = (TExpr.shift 1).nIn) ∧
      ([(7 : ℚ)].length = (TExpr.scale 2).nIn) ∧
      ((joinT (.shift 1) (.scale 2)).nIn =
          (TExpr.shift 1).nIn + (TExpr.scale 2).nIn ∧
        (joinT (.shift 1) (.scale 2)).nOut =
          (TExpr.shift 1).nOut + (TExpr.scale 2).nOut ∧
        evaluateT (joinT (.shift 1) (.scale 2)) ([(5 : ℚ)] ++ [(7 : ℚ)]) =
          .ok ((TExpr.shift 1).eval [5] ++ (TExpr.scale 2).eval [7]) ∧
        ((joinT (.shift 1) (.scale 2)).eval ([(5 : ℚ)] ++ [(7 : ℚ)])).length =
          (TExpr.shift 1).nOut + (TExpr.scale 2).nOut ∧
        (∀ z : List ℚ,
          z.length ≠ (TExpr.shift 1).nIn + (TExpr.scale 2).nIn →
            evaluateT (joinT (.shift 1) (.scale 2)) z =
              .error .ArityMismatch)) :=
  ⟨rfl, rfl, rfl, rfl,
    join_splits_concatenates (.shift 1) (.scale 2) rfl rfl [5] [7] rfl rfl⟩

/-- C7: chain with mismatched arities fails with DimensionMismatch at
composition time and constructs no transform. -/
theorem chain_mismatch_rejected (A B : TExpr) (h : A.nOut ≠ B.nIn) :
    chainT A B = .error .DimensionMismatch ∧ ∀ c, chainT A B ≠ .ok c := by
  refine ⟨by simp [chainT, h], ?_⟩
  intro c hc
  simp [chainT, h] at hc

/-- Witness for C7 at A = join(shift 1)(shift 2) (two outputs),
B = scale 2 (one input). -/
theorem chain_mismatch_rejected_witness :
    (TExpr.join (.shift 1) (.shift 2)).nOut ≠ (TExpr.scale 2).nIn ∧
      (chainT (.join (.shift 1) (.shift 2)) (.scale 2) =
          .error .DimensionMismatch ∧
        ∀ c, chainT (.join (.shift 1) (.shift 2)) (.scale 2) ≠ .ok c) :=
  ⟨by decide,
    chain_mismatch_rejected (.join (.shift 1) (.shift 2)) (.scale 2)
      (by decide)⟩

/-- C8: remap over in-range indices is a transform of N inputs to
len(spec) outputs whose k-th output is the input at index spec[k]; it fails
with IndexOutOfRange when some index is out of range; and remap over
(0, 1, 0, 1) takes two inputs (a, b) to (a, b, a, b). -/
theorem remap_switchboard (sp : List ℕ) (n : ℕ) :
    (sp.all (· < n) = true →
      ∃ r, remapT sp n = .ok r ∧ r.nIn = n ∧ r.nOut = sp.length ∧
        ∀ xs : List ℚ, xs.length = n → ∀ k, k < sp.length →
          (r.eval xs).getD k 0 = xs.getD (sp.getD k 0) 0) ∧
    (sp.all (· < n) = false → remapT sp n = .error .IndexOutOfRange) ∧
    (∀ a b : ℚ, TExpr.eval (.remap [0, 1, 0, 1] 2) [a, b] = [a, b, a, b]) := by
  refine ⟨?_, ?_, ?_⟩
  · intro h
    refine ⟨.remap sp n, by simp [remapT, h], rfl, rfl, ?_⟩
    intro xs hxs k hk
    simp [TExpr.eval, List.getD_eq_getElem?_getD, List.getElem?_map,
      List.getElem?_eq_getElem hk]
  · intro h
    simp [remapT, h]
  · intro a b
    simp [TExpr.eval, List.getD]

/-- Witness for C8 at spec = (0, 1, 0, 1), n = 2, input (3, 4), k = 2. -/
theorem remap_switchboard_witness :
    ([0, 1, 0, 1].all (· < 2) = true) ∧
      (∃ r, remapT [0, 1, 0, 1] 2 = .ok r ∧ r.nIn = 2 ∧
        r.nOut = [0, 1, 0, 1].length ∧
        ∀ xs : List ℚ, xs.length = 2 → ∀ k, k < [0, 1, 0, 1].length →
          (r.eval xs).getD k 0 = xs.getD ([0, 1, 0, 1].getD k 0) 0) :=
  ⟨by decide, (remap_switchboard [0, 1, 0, 1] 2).1 (by decide)⟩

/-- C1: Serialization round-trips — deserializing a serialized valid
pipeline reconstructs it exactly (same frame names, same composition tree
shape), hence evaluation-equivalent on every coordinate input; in
particular the three-frame pipeline with a shift-by-(1,2) transform chained
into a scale-by-(2,2) transform round-trips and the deserialized pipeline
maps (10, 20) to (22, 44), the same as the original. -/
theorem serialization_roundtrip :
    (∀ p : Pipeline, pipelineValid p = true →
      deserialize (serialize p) = .ok p) ∧
    (∃ q, deserialize (serialize examplePipeline) = .ok q ∧
      (∀ x, evaluateP q x = evaluateP examplePipeline x) ∧
      list_frames q = list_frames examplePipeline ∧
      q.steps = examplePipeline.steps ∧
      evaluateP q [10, 20] = [22, 44] ∧
      evaluateP examplePipeline [10, 20] = [22, 44]) :=
  ⟨deserialize_serialize,
    examplePipeline, deserialize_serialize _ examplePipeline_valid,
    fun _ => rfl, rfl, rfl, examplePipeline_eval, examplePipeline_eval⟩

/-- Witness for C1 at the three-frame example pipeline. -/
theorem serialization_roundtrip_witness :
    pipelineValid examplePipeline = true ∧
      deserialize (serialize examplePipeline) = .ok examplePipeline :=
  ⟨examplePipeline_valid,
    serialization_roundtrip.1 examplePipeline examplePipeline_valid⟩

/-- C4: Composability of partial evaluation — for frame names f1 preceding
f2 in pipeline order, evaluating from the input frame to f1 and then from
f1 to f2 equals evaluating from the input frame to f2. -/
theorem evaluate_between_compose (p : Pipeline) (x : List ℚ)
    (f1 f2 : String) (i1 i2 : ℕ)
    (h1 : findFrameIdx p f1 = some i1) (h2 : findFrameIdx p f2 = some i2)
    (hle : i1 ≤ i2) :
    (evaluate_between p (inputFrameName p) f1 x).bind
        (fun y => evaluate_between p f1 f2 y) =
      evaluate_between p (inputFrameName p) f2 x := by
  cases hst : p.steps with
  | nil =>
    rw [findFrameIdx, hst] at h1
    simp at h1
  | cons s rest =>
    have h0 : findFrameIdx p (inputFrameName p) = some 0 :=
      findFrameIdx_input p s rest hst
    rw [evaluate_between_ok p _ f1 0 i1 h0 h1 (Nat.zero_le _) x,
      evaluate_between_ok p _ f2 0 i2 h0 h2 (Nat.zero_le _) x]
    show evaluate_between p f1 f2 (runList (transformsBetween p 0 i1) x) = _
    rw [evaluate_between_ok p f1 f2 i1 i2 h1 h2 hle _,
      ← transformsBetween_split p i1 i2 hle, runList_append]

/-- Witness for C4 at the example pipeline, f1 = v2v3, f2 = world. -/
theorem evaluate_between_compose_witness :
    findFrameIdx examplePipeline "v2v3" = some 1 ∧
      findFrameIdx examplePipeline "world" = some 2 ∧
      (evaluate_between examplePipeline (inputFrameName examplePipeline)
            "v2v3" [10, 20]).bind
          (fun y => evaluate_between examplePipeline "v2v3" "world" y) =
        evaluate_between examplePipeline (inputFrameName examplePipeline)
          "world" [10, 20] :=
  ⟨by decide, by decide,
    evaluate_between_compose examplePipeline [10, 20] "v2v3" "world" 1 2
      (by decide) (by decide) (by decide)⟩

/-- C9: Partial evaluation over the full range agrees with full
evaluation — evaluating between the input frame and the output frame equals
evaluating the whole pipeline, since evaluate_between is inclusive of the
from step's outgoing transform and exclusive of the to step's (sentinel)
transform. -/
theorem evaluate_between_full_range (p : Pipeline) (x : List ℚ)
    (init : List Step) (lastF : Frame)
    (hp : p.steps = init ++ [⟨lastF, none⟩])
    (hout : findFrameIdx p (outputFrameName p) = some init.length) :
    evaluate_between p (inputFrameName p) (outputFrameName p) x =
      .ok (evaluateP p x) := by
  have hne : p.steps ≠ [] := by
    rw [hp]; simp
  obtain ⟨s, rest, hst⟩ : ∃ s rest, p.steps = s :: rest := by
    cases hq : p.steps with
    | nil => exact absurd hq hne
    | cons a l => exact ⟨a, l, rfl⟩
  have h0 : findFrameIdx p (inputFrameName p) = some 0 :=
    findFrameIdx_input p s rest hst
  rw [evaluate_between_ok p _ _ 0 init.length h0 hout (Nat.zero_le _) x]
  congr 1
  unfold evaluateP transformsBetween
  rw [List.drop_zero, hp, List.take_left, List.filterMap_append]
  simp

/-- Witness for C9 at the example pipeline. -/
theorem evaluate_between_full_range_witness :
    examplePipeline.steps =
        [⟨⟨"detector", 2, ["pixel", "pixel"]⟩,
            some (.join (.shift 1) (.shift 2))⟩,
          ⟨⟨"v2v3", 2, ["arcsec", "arcsec"]⟩,
            some (.join (.scale 2) (.scale 2))⟩] ++
          [⟨⟨"world", 2, ["deg", "deg"]⟩, none⟩] ∧
      findFrameIdx examplePipeline (outputFrameName examplePipeline) =
        some 2 ∧
      evaluate_between examplePipeline (inputFrameName examplePipeline)
          (outputFrameName examplePipeline) [10, 20] =
        .ok (evaluateP examplePipeline [10, 20]) :=
  ⟨rfl, by decide,
    evaluate_between_full_range examplePipeline [10, 20]
      [⟨⟨"detector", 2, ["pixel", "pixel"]⟩,
          some (.join (.shift 1) (.shift 2))⟩,
        ⟨⟨"v2v3", 2, ["arcsec", "arcsec"]⟩,
          some (.join (.scale 2) (.scale 2))⟩]
      ⟨"world", 2, ["deg", "deg"]⟩ rfl (by decide)⟩

/-- The example pipeline after replacing the detector-stage transform. -/
def exampleModified : Pipeline :=
  ⟨[⟨⟨"detector", 2, ["pixel", "pixel"]⟩,
      some (.join (.shift 5) (.shift 6))⟩,
    ⟨⟨"v2v3", 2, ["arcsec", "arcsec"]⟩,
      some (.join (.scale 2) (.scale 2))⟩,
    ⟨⟨"world", 2, ["deg", "deg"]⟩, none⟩]⟩

/-- C5: After a successful set_transform(p, f, t), get_transform(p, f)
returns exactly t and every subsequent evaluation applies t at that step;
the single shared pipeline state is modelled by explicit state passing, so
the returned pipeline is the one all holders observe. -/
theorem set_then_get (pre post : List Step) (fr fr2 : Frame)
    (old tr2 : Option TExpr) (t : TExpr) (p p' : Pipeline)
    (hp : p = ⟨pre ++ ⟨fr, old⟩ :: ⟨fr2, tr2⟩ :: post⟩)
    (hp' : p' = ⟨pre ++ ⟨fr, some t⟩ :: ⟨fr2, tr2⟩ :: post⟩)
    (hpre : ∀ u ∈ pre, u.frame.name ≠ fr.name)
    (h1 : t.nIn = fr.dim) (h2 : t.nOut = fr2.dim) :
    set_transform p fr.name t = .ok p' ∧
    get_transform p' fr.name = .ok t ∧
    ∀ x, evaluateP p' x =
      runList (List.filterMap Step.transform (⟨fr2, tr2⟩ :: post))
        (t.eval (runList (pre.filterMap Step.transform) x)) := by
  subst hp hp'
  refine ⟨set_transform_ok pre post fr fr2 old tr2 t hpre h1 h2,
    get_transform_ok pre _ fr t hpre, ?_⟩
  intro x
  simp only [evaluateP, List.filterMap_append, List.filterMap_cons,
    Step.transform, runList_append, runList_cons]

/-- Witness for C5: replacing the detector stage of the example pipeline by
a shift-by-(5,6) transform. -/
theorem set_then_get_witness :
    ((TExpr.join (.shift 5) (.shift 6)).nIn =
        (⟨"detector", 2, ["pixel", "pixel"]⟩ : Frame).dim ∧
      (TExpr.join (.shift 5) (.shift 6)).nOut =
        (⟨"v2v3", 2, ["arcsec", "arcsec"]⟩ : Frame).dim) ∧
    (set_transform examplePipeline "detector"
        (.join (.shift 5) (.shift 6)) = .ok exampleModified ∧
      get_transform exampleModified "detector" =
        .ok (.join (.shift 5) (.shift 6)) ∧
      ∀ x, evaluateP exampleModified x =
        runList (List.filterMap Step.transform
            [⟨⟨"v2v3", 2, ["arcsec", "arcsec"]⟩,
                some (.join (.scale 2) (.scale 2))⟩,
              ⟨⟨"world", 2, ["deg", "deg"]⟩, none⟩])
          ((TExpr.join (.shift 5) (.shift 6)).eval
            (runList (List.filterMap Step.transform []) x))) :=
  ⟨⟨rfl, rfl⟩,
    set_then_get [] [⟨⟨"world", 2, ["deg", "deg"]⟩, none⟩]
      ⟨"detector", 2, ["pixel", "pixel"]⟩ ⟨"v2v3", 2, ["arcsec", "arcsec"]⟩
      (some (.join (.shift 1) (.shift 2)))
      (some (.join (.scale 2) (.scale 2)))
      (.join (.shift 5) (.shift 6)) examplePipeline exampleModified
      rfl rfl (by simp) rfl rfl⟩

/-- C6: set_transform is atomic replace-or-reject — with mismatched
arities it raises DimensionMismatch, produces no pipeline, and the named
frame's transform is left unchanged. -/
theorem set_transform_reject (pre post : List Step) (fr fr2 : Frame)
    (t0 : TExpr) (tr2 : Option TExpr) (t : TExpr) (p : Pipeline)
    (hp : p = ⟨pre ++ ⟨fr, some t0⟩ :: ⟨fr2, tr2⟩ :: post⟩)
    (hpre : ∀ u ∈ pre, u.frame.name ≠ fr.name)
    (hmis : ¬(t.nIn = fr.dim ∧ t.nOut = fr2.dim)) :
    set_transform p fr.name t = .error .DimensionMismatch ∧
    (∀ q, set_transform p fr.name t ≠ .ok q) ∧
    get_transform p fr.name = .ok t0 := by
  subst hp
  refine ⟨set_transform_mismatch pre post fr fr2 (some t0) tr2 t hpre hmis,
    ?_, get_transform_ok pre _ fr t0 hpre⟩
  intro q hq
  rw [set_transform_mismatch pre post fr fr2 (some t0) tr2 t hpre hmis] at hq
  exact Except.noConfusion hq

/-- Witness for C6: a 1-input shift cannot replace the 2-dimensional
detector stage; the pipeline keeps its old transform. -/
theorem set_transform_reject_witness :
    ¬((TExpr.shift 9).nIn =
          (⟨"detector", 2, ["pixel", "pixel"]⟩ : Frame).dim ∧
        (TExpr.shift 9).nOut =
          (⟨"v2v3", 2, ["arcsec", "arcsec"]⟩ : Frame).dim) ∧
    (set_transform examplePipeline "detector" (.shift 9) =
        .error .DimensionMismatch ∧
      (∀ q, set_transform examplePipeline "detector" (.shift 9) ≠ .ok q) ∧
      get_transform examplePipeline "detector" =
        .ok (.join (.shift 1) (.shift 2))) :=
  ⟨by decide,
    set_transform_reject [] [⟨⟨"world", 2, ["deg", "deg"]⟩, none⟩]
      ⟨"detector", 2, ["pixel", "pixel"]⟩ ⟨"v2v3", 2, ["arcsec", "arcsec"]⟩
      (.join (.shift 1) (.shift 2)) (some (.join (.scale 2) (.scale 2)))
      (.shift 9) examplePipeline rfl (by simp) (by decide)⟩

/-- C10: set_transform touches only the named step — the frame sequence is
identical afterwards and every other step's transform is unchanged. -/
theorem set_transform_local (pre post : List Step) (fr fr2 : Frame)
    (old tr2 : Option TExpr) (t : TExpr) (p p' : Pipeline)
    (hp : p = ⟨pre ++ ⟨fr, old⟩ :: ⟨fr2, tr2⟩ :: post⟩)
    (hp' : p' = ⟨pre ++ ⟨fr, some t⟩ :: ⟨fr2, tr2⟩ :: post⟩)
    (hpre : ∀ u ∈ pre, u.frame.name ≠ fr.name)
    (h1 : t.nIn = fr.dim) (h2 : t.nOut = fr2.dim) :
    set_transform p fr.name t = .ok p' ∧
    list_frames p' = list_frames p ∧
    ∀ j, j ≠ pre.length →
      (p'.steps.map Step.transform)[j]? =
        (p.steps.map Step.transform)[j]? := by
  subst hp hp'
  refine ⟨set_transform_ok pre post fr fr2 old tr2 t hpre h1 h2, ?_, ?_⟩
  · simp [list_frames]
  · intro j hj
    simp only [List.map_append, List.map_cons, Step.transform]
    exact getElem?_append_cons_ne (pre.map Step.transform) _ _ _ j
      (by simpa using hj)

/-- Witness for C10 at the same replacement as C5. -/
theorem set_transform_local_witness :
    ((TExpr.join (.shift 5) (.shift 6)).nIn =
        (⟨"detector", 2, ["pixel", "pixel"]⟩ : Frame).dim ∧
      (TExpr.join (.shift 5) (.shift 6)).nOut =
        (⟨"v2v3", 2, ["arcsec", "arcsec"]⟩ : Frame).dim) ∧
    (set_transform examplePipeline "detector"
        (.join (.shift 5) (.shift 6)) = .ok exampleModified ∧
      list_frames exampleModified = list_frames examplePipeline ∧
      ∀ j, j ≠ (0 : ℕ) →
        (exampleModified.steps.map Step.transform)[j]? =
          (examplePipeline.steps.map Step.transform)[j]?) :=
  ⟨⟨rfl, rfl⟩,
    set_transform_local [] [⟨⟨"world", 2, ["deg", "deg"]⟩, none⟩]
      ⟨"detector", 2, ["pixel", "pixel"]⟩ ⟨"v2v3", 2, ["arcsec", "arcsec"]⟩
      (some (.join (.shift 1) (.shift 2)))
      (some (.join (.scale 2) (.scale 2)))
      (.join (.shift 5) (.shift 6)) examplePipeline exampleModified
      rfl rfl (by simp) rfl rfl⟩

end WcsPipeline
